import Mathlib

set_option maxRecDepth 100000

/-!
Verification of the FluidTerm2 stm32loader protocol engine
(src/stm32loader/stm32.cpp) against its natural-language specification.

The shallow embedding below translates the relevant C functions into pure
Lean functions.  Machine integers are modelled as `Nat` with explicit
truncation (`% 256`, `% 2 ^ 32`, `&&&` masks) exactly where the C code
relies on fixed-width arithmetic.  Interaction with the transport port is
modelled by a script of port responses consumed in order, and the engine
functions return the protocol result together with the trace of operations
they emitted on the port.
-/

namespace Stm32

/-- Protocol-level results of the engine, mirroring `stm32_err_t`
(`STM32_ERR_OK`, `STM32_ERR_UNKNOWN`, `STM32_ERR_NACK`, `STM32_ERR_NO_CMD`,
`STM32_ERR_TIMEOUT`). -/
inductive Stm32Err
  | ok
  | unknown
  | nack
  | noCmd
  | timedOut
  deriving DecidableEq

/-- XOR-accumulating fold, matching the C pattern `for (...) cs ^= b;`
over a list of bytes with a given initial accumulator. -/
def xorFold (init : Nat) (l : List Nat) : Nat :=
  l.foldl (fun c b => c ^^^ b) init

/-- Rounding of the write length to a 4-byte multiple, as computed by
`aligned_len = (len + 3) & ~3` in `stm32_write_memory` (`unsigned int`
arithmetic, so `~3` is the 32-bit mask `0xFFFFFFFC`). -/
def alignedLen (len : Nat) : Nat :=
  (len + 3) &&& 0xFFFFFFFC

/-- Spec-side rounding `ceil(L,4)`: `L` rounded up to the next multiple
of 4. -/
def ceil4 (L : Nat) : Nat :=
  4 * ((L + 3) / 4)

/-- Data payload frame built by `stm32_write_memory` (stm32.cpp lines
629-643): `buf[0] = aligned_len - 1` (as a `uint8_t`), then the caller's
`len` data bytes, then `0xFF` padding up to `aligned_len` bytes, then the
checksum byte accumulated with `cs ^= ...` over `aligned_len - 1` and every
payload byte, in exactly the order of the two C loops. -/
def writeDataFrame (data : List Nat) : List Nat :=
  let len := data.length
  let n := alignedLen len
  let payload := data ++ List.replicate (n - len) 0xFF
  ((n - 1) % 256) :: payload ++ [xorFold ((n - 1) % 256) payload]

/-- One round of the bit-serial CRC in `stm32_sw_crc`:
`crc = (crc & 0x80000000) ? (crc << 1) ^ 0x04C11DB7 : (crc << 1)`,
with `uint32_t` overflow made explicit by `% 2 ^ 32`. -/
def crcRound (crc : Nat) : Nat :=
  if crc &&& 0x80000000 ≠ 0 then ((crc <<< 1) ^^^ 0x04C11DB7) % 2 ^ 32
  else (crc <<< 1) % 2 ^ 32

/-- The inner `for (i = 0; i < 32; i++)` loop of `stm32_sw_crc` after
xoring one 32-bit word into the accumulator. -/
def crcWord (crc w : Nat) : Nat :=
  crcRound^[32] (crc ^^^ w)

/-- The outer `while (len)` loop of `stm32_sw_crc`: assemble a 32-bit
little-endian word from the next four bytes
(`data = b0 | b1 << 8 | b2 << 16 | b3 << 24`) and run 32 CRC rounds. -/
def crcLoop : Nat → List Nat → Nat
  | crc, b0 :: b1 :: b2 :: b3 :: rest =>
      crcLoop (crcWord crc (b0 ||| b1 <<< 8 ||| b2 <<< 16 ||| b3 <<< 24)) rest
  | crc, _ => crc

/-- Shallow embedding of `stm32_sw_crc` (stm32.cpp lines 1064-1089): a
length that is not a multiple of 4 (`len & 0x3`) returns 0, otherwise the
bit-serial CRC of the buffer is computed word by word. -/
def stm32_sw_crc (crc : Nat) (buf : List Nat) : Nat :=
  if buf.length &&& 0x3 ≠ 0 then 0 else crcLoop crc buf

/-- The negotiated command map `stm32_cmd` of stm32.cpp: one opcode byte per
command kind, with `0xFF` (`STM32_CMD_ERR`) as the "unsupported" sentinel. -/
structure Stm32Cmd where
  get : Nat
  gvr : Nat
  gid : Nat
  rm : Nat
  go : Nat
  wm : Nat
  er : Nat
  wp : Nat
  uw : Nat
  rp : Nat
  ur : Nat
  crc : Nat
  deriving DecidableEq

/-- Initial command map: `memset(stm->cmd, STM32_CMD_ERR, sizeof(stm32_cmd_t))`
fills every entry with the sentinel `0xFF`. -/
def initCmd : Stm32Cmd :=
  ⟨0xFF, 0xFF, 0xFF, 0xFF, 0xFF, 0xFF, 0xFF, 0xFF, 0xFF, 0xFF, 0xFF, 0xFF⟩

/-- The `newer` macro of stm32.cpp line 394:
`(((prev) == STM32_CMD_ERR) ? (a) : (((prev) > (a)) ? (prev) : (a)))`. -/
def newer (prev a : Nat) : Nat :=
  if prev = 0xFF then a else if prev > a then prev else a

/-- One iteration of the GET-reply `switch (val)` in `stm32_init`
(stm32.cpp lines 443-492), written as a chain of tests against the
`STM32_CMD_*` opcode constants; the `default` branch only logs. -/
def parseGetByte (c : Stm32Cmd) (val : Nat) : Stm32Cmd :=
  if val = 0x00 then { c with get := val }
  else if val = 0x01 then { c with gvr := val }
  else if val = 0x02 then { c with gid := val }
  else if val = 0x11 then { c with rm := val }
  else if val = 0x21 then { c with go := val }
  else if val = 0x31 ∨ val = 0x32 then { c with wm := newer c.wm val }
  else if val = 0x43 ∨ val = 0x44 ∨ val = 0x45 then { c with er := newer c.er val }
  else if val = 0x63 ∨ val = 0x64 then { c with wp := newer c.wp val }
  else if val = 0x73 ∨ val = 0x74 then { c with uw := newer c.uw val }
  else if val = 0x82 ∨ val = 0x83 then { c with rp := newer c.rp val }
  else if val = 0x92 ∨ val = 0x93 then { c with ur := newer c.ur val }
  else if val = 0xA1 then { c with crc := newer c.crc val }
  else c

/-- Folding the GET-reply opcode bytes into the freshly initialised command
map, as the `for (i = 1; i < len; i++)` loop of `stm32_init` does. -/
def parseGetReply (opcodes : List Nat) : Stm32Cmd :=
  opcodes.foldl parseGetByte initCmd

/-- The opcode bytes visited by the GET parse loop of `stm32_init`: with
`len = buf[0] + 1` and `val = buf[i + 1]` for `i = 1 .. len - 1`, these are
the `buf[0]` bytes starting at `buf[2]` (`buf[1]` is `bl_version`). -/
def getOpcodeSlice (buf : List Nat) : List Nat :=
  (buf.drop 2).take (buf.headD 0)

/-- Command-map state after `stm32_init` has parsed a complete GET reply
buffer `buf` (length byte, bootloader version byte, opcode bytes). -/
def stm32_parse_get (buf : List Nat) : Stm32Cmd :=
  parseGetReply (getOpcodeSlice buf)

/-- Outcome of one scripted single-byte port read inside
`stm32_get_ack_timeout`: a byte, a timed-out read together with the wall
clock `t1` observed by the `time(&t1)` call of that branch, or another
transport error. -/
inductive ReadEv
  | ok (byte : Nat)
  | timedOut (t1 : Nat)
  | err
  deriving DecidableEq

/-- Shallow embedding of `stm32_get_ack_timeout` (stm32.cpp lines 186-220).
The `retry` flag is `port->flags & PORT_RETRY`; the code zeroes `timeout`
when the flag is absent.  `t0` is the wall clock at entry; scripted events
are consumed in order by the `do { ... } while (1)` loop and `none` is
returned if the script runs out while the loop would continue. -/
def stm32_get_ack_timeout (retry : Bool) (tmo t0 : Nat) :
    List ReadEv → Option Stm32Err
  | [] => none
  | ev :: rest =>
    let timeout := if retry then tmo else 0
    match ev with
    | .timedOut t1 =>
        if timeout ≠ 0 ∧ t1 < t0 + timeout then
          stm32_get_ack_timeout retry tmo t0 rest
        else some .unknown
    | .err => some .unknown
    | .ok b =>
        if b = 0x79 then some .ok
        else if b = 0x1F then some .nack
        else if b ≠ 0x76 then some .unknown
        else stm32_get_ack_timeout retry tmo t0 rest

/-- Classification of a terminal (non-BUSY) acknowledgement byte:
`0x79` is ACK, `0x1F` is NACK, any other byte is an unknown reply. -/
def ackClassify (b : Nat) : Stm32Err :=
  if b = 0x79 then .ok else if b = 0x1F then .nack else .unknown

/-- A scripted read event that `stm32_get_ack_timeout` consumes without
terminating: a BUSY byte (`0x76`), or a timed-out read while the caller
passed a non-zero timeout, the port has `PORT_RETRY`, and the observed
clock is still before the deadline. -/
def AckSkippable (retry : Bool) (tmo t0 : Nat) (ev : ReadEv) : Prop :=
  ev = .ok 0x76 ∨
    ∃ t1, ev = .timedOut t1 ∧ (if retry then tmo else 0) ≠ 0 ∧
      t1 < t0 + (if retry then tmo else 0)

/-- Scripted response of the transport port to one engine primitive:
success or failure of a framed command send (`stm32_send_command`), of a
resynchronisation (`stm32_resync`), of a raw `port->write`, of an
acknowledgement read (`stm32_get_ack`/`stm32_get_ack_timeout`), or the
outcome of a raw `port->read` (the received bytes, or a failure). -/
inductive PResp
  | cmdOk
  | cmdFail
  | syncOk
  | syncFail
  | wrOk
  | wrFail
  | ackOk
  | ackFail
  | rdOk (bs : List Nat)
  | rdFail
  deriving DecidableEq

/-- Operation emitted on the transport by the engine, in order: a framed
command send (two bytes `cmd, cmd ^ 0xFF`), a raw write of the given
bytes, a raw read of `n` bytes, or a resynchronisation sequence. -/
inductive Op
  | send (cmd : Nat)
  | wr (bs : List Nat)
  | rd (n : Nat)
  | resync
  deriving DecidableEq

/-- Consume a scripted command-send outcome. -/
def takeCmd : List PResp → Option (Bool × List PResp)
  | .cmdOk :: r => some (true, r)
  | .cmdFail :: r => some (false, r)
  | _ => none

/-- Consume a scripted resync outcome. -/
def takeSync : List PResp → Option (Bool × List PResp)
  | .syncOk :: r => some (true, r)
  | .syncFail :: r => some (false, r)
  | _ => none

/-- Consume a scripted raw-write outcome. -/
def takeWr : List PResp → Option (Bool × List PResp)
  | .wrOk :: r => some (true, r)
  | .wrFail :: r => some (false, r)
  | _ => none

/-- Consume a scripted acknowledgement outcome (`true` exactly when the
ACK helper returned `STM32_ERR_OK`). -/
def takeAck : List PResp → Option (Bool × List PResp)
  | .ackOk :: r => some (true, r)
  | .ackFail :: r => some (false, r)
  | _ => none

/-- Consume a scripted raw-read outcome. -/
def takeRd : List PResp → Option (Option (List Nat) × List PResp)
  | .rdOk bs :: r => some (some bs, r)
  | .rdFail :: r => some (none, r)
  | _ => none

/-- Final phase of `stm32_guess_len_cmd` on a frame port (stm32.cpp lines
328-338), entered with `l0 = data[0]`: print the diagnostic, resync,
re-send the command and read `data[0] + 2` bytes. -/
def guessFinal (cmd l0 : Nat) (sc : List PResp) (ops : List Op) :
    Option (Stm32Err × List Op) :=
  match takeSync sc with
  | none => none
  | some (false, _) => some (.unknown, ops ++ [Op.resync])
  | some (true, sc) =>
    match takeCmd sc with
    | none => none
    | some (false, _) => some (.unknown, ops ++ [Op.resync, Op.send cmd])
    | some (true, sc) =>
      match takeRd sc with
      | none => none
      | some (none, _) =>
          some (.unknown, ops ++ [Op.resync, Op.send cmd, Op.rd (l0 + 2)])
      | some (some _, _) =>
          some (.ok, ops ++ [Op.resync, Op.send cmd, Op.rd (l0 + 2)])

/-- Shallow embedding of `stm32_guess_len_cmd` (stm32.cpp lines 296-339).
`byteMode` is `port->flags & PORT_BYTE`.  On a byte port the length byte is
read first and `len + 1` further bytes follow.  On a frame port the
engine reads `len + 2` bytes with the caller's guess `len`; on success with
a matching leading byte it is done; if the read failed it resyncs,
re-sends and reads one byte to discover the length; in either remaining
case it then resyncs once and performs the final `data[0] + 2`-byte read. -/
def stm32_guess_len_cmd (byteMode : Bool) (cmd len : Nat) (sc : List PResp) :
    Option (Stm32Err × List Op) :=
  match takeCmd sc with
  | none => none
  | some (false, _) => some (.unknown, [Op.send cmd])
  | some (true, sc) =>
    if byteMode then
      match takeRd sc with
      | none => none
      | some (none, _) => some (.unknown, [Op.send cmd, Op.rd 1])
      | some (some bs, sc) =>
        match takeRd sc with
        | none => none
        | some (none, _) =>
            some (.unknown, [Op.send cmd, Op.rd 1, Op.rd (bs.headD 0 + 1)])
        | some (some _, _) =>
            some (.ok, [Op.send cmd, Op.rd 1, Op.rd (bs.headD 0 + 1)])
    else
      match takeRd sc with
      | none => none
      | some (some bs, sc) =>
        if bs.headD 0 = len then some (.ok, [Op.send cmd, Op.rd (len + 2)])
        else guessFinal cmd (bs.headD 0) sc [Op.send cmd, Op.rd (len + 2)]
      | some (none, sc) =>
        match takeSync sc with
        | none => none
        | some (false, _) =>
            some (.unknown, [Op.send cmd, Op.rd (len + 2), Op.resync])
        | some (true, sc) =>
          match takeCmd sc with
          | none => none
          | some (false, _) =>
              some (.unknown,
                [Op.send cmd, Op.rd (len + 2), Op.resync, Op.send cmd])
          | some (true, sc) =>
            match takeRd sc with
            | none => none
            | some (none, _) =>
                some (.unknown,
                  [Op.send cmd, Op.rd (len + 2), Op.resync, Op.send cmd,
                   Op.rd 1])
            | some (some bs2, sc) =>
              guessFinal cmd (bs2.headD 0) sc
                [Op.send cmd, Op.rd (len + 2), Op.resync, Op.send cmd,
                 Op.rd 1]

/-- The five-byte big-endian address (or length) frame with trailing XOR
checksum built by `stm32_read_memory`, `stm32_write_memory`, `stm32_go`
and `stm32_crc_memory`; byte 0 is truncated to a `uint8_t`. -/
def addrFrame (address : Nat) : List Nat :=
  [(address >>> 24) % 256, (address >>> 16) &&& 0xFF,
   (address >>> 8) &&& 0xFF, address &&& 0xFF,
   ((address >>> 24) % 256) ^^^ ((address >>> 16) &&& 0xFF) ^^^
     ((address >>> 8) &&& 0xFF) ^^^ (address &&& 0xFF)]

/-- Shallow embedding of `stm32_write_memory` (stm32.cpp lines 590-652):
early returns for a zero length, a length above 256, a misaligned address
(`address & 0x3`) and an unsupported command, then the framed command, the
address frame, an ACK, the data payload frame and a final ACK with the
1-second block-write timeout. -/
def stm32_write_memory (wm address : Nat) (data : List Nat)
    (sc : List PResp) : Option (Stm32Err × List Op) :=
  if data.length = 0 then some (.ok, [])
  else if 256 < data.length then some (.unknown, [])
  else if address &&& 0x3 ≠ 0 then some (.unknown, [])
  else if wm = 0xFF then some (.noCmd, [])
  else
    match takeCmd sc with
    | none => none
    | some (false, _) => some (.unknown, [Op.send wm])
    | some (true, sc) =>
      match takeWr sc with
      | none => none
      | some (false, _) =>
          some (.unknown, [Op.send wm, Op.wr (addrFrame address)])
      | some (true, sc) =>
        match takeAck sc with
        | none => none
        | some (false, _) =>
            some (.unknown, [Op.send wm, Op.wr (addrFrame address)])
        | some (true, sc) =>
          match takeWr sc with
          | none => none
          | some (false, _) =>
              some (.unknown, [Op.send wm, Op.wr (addrFrame address),
                Op.wr (writeDataFrame data)])
          | some (true, sc) =>
            match takeAck sc with
            | none => none
            | some (false, _) =>
                some (.unknown, [Op.send wm, Op.wr (addrFrame address),
                  Op.wr (writeDataFrame data)])
            | some (true, _) =>
                some (.ok, [Op.send wm, Op.wr (addrFrame address),
                  Op.wr (writeDataFrame data)])

/-- Shallow embedding of `stm32_read_memory` (stm32.cpp lines 548-588):
early returns for a zero length, a length above 256 and an unsupported
command, then the framed command, the address frame, an ACK, the framed
byte `len - 1` and the `len`-byte data read. -/
def stm32_read_memory (rm address len : Nat) (sc : List PResp) :
    Option (Stm32Err × List Op) :=
  if len = 0 then some (.ok, [])
  else if 256 < len then some (.unknown, [])
  else if rm = 0xFF then some (.noCmd, [])
  else
    match takeCmd sc with
    | none => none
    | some (false, _) => some (.unknown, [Op.send rm])
    | some (true, sc) =>
      match takeWr sc with
      | none => none
      | some (false, _) =>
          some (.unknown, [Op.send rm, Op.wr (addrFrame address)])
      | some (true, sc) =>
        match takeAck sc with
        | none => none
        | some (false, _) =>
            some (.unknown, [Op.send rm, Op.wr (addrFrame address)])
        | some (true, sc) =>
          match takeCmd sc with
          | none => none
          | some (false, _) =>
              some (.unknown, [Op.send rm, Op.wr (addrFrame address),
                Op.send (len - 1)])
          | some (true, sc) =>
            match takeRd sc with
            | none => none
            | some (none, _) =>
                some (.unknown, [Op.send rm, Op.wr (addrFrame address),
                  Op.send (len - 1), Op.rd len])
            | some (some _, _) =>
                some (.ok, [Op.send rm, Op.wr (addrFrame address),
                  Op.send (len - 1), Op.rd len])

/-- Device-record fields of `stm32_dev_t` used by the erase and page
arithmetic claims: the flash range, the zero-terminated page-size array
`fl_ps`, and the `F_NO_ME` quirk flag. -/
structure Stm32Dev where
  fl_start : Nat
  fl_end : Nat
  fl_ps : List Nat
  noME : Bool

/-- Pointer advance of the page-size walk: `if (psize[1]) psize++;` keeps
the pointer on the last entry before the zero terminator. -/
def psAdvance : List Nat → List Nat
  | s :: r :: rest => if r = 0 then s :: r :: rest else r :: rest
  | l => l

/-- The page-size walking loop shared by `flash_addr_to_page_floor` and
`flash_addr_to_page_ceil` (stm32.cpp lines 1283-1288):
`while (addr >= psize[0]) { addr -= psize[0]; page++; if (psize[1]) psize++; }`,
returning the page count and the residual offset.  The structural `fuel`
argument (instantiated with the starting offset, which bounds the number
of iterations since every page size is positive) makes the recursion
structural; a zero page size, on which the C loop would never terminate
and which no device table contains, stops the walk instead. -/
def pageWalkF : Nat → Nat → List Nat → Nat × Nat
  | 0, off, _ => (0, off)
  | _ + 1, off, [] => (0, off)
  | fuel + 1, off, s :: rest =>
    if s = 0 ∨ off < s then (0, off)
    else
      let p := pageWalkF fuel (off - s) (psAdvance (s :: rest))
      (p.1 + 1, p.2)

/-- Page-size walk from a flash offset over a page-size array. -/
def pageWalk (off : Nat) (ps : List Nat) : Nat × Nat :=
  pageWalkF off off ps

/-- Shallow embedding of `flash_addr_to_page_floor` (stm32.cpp lines
1272-1291): outside `[fl_start, fl_end)` the result is 0, otherwise the
page count of the walk from `addr - fl_start`. -/
def flash_addr_to_page_floor (dev : Stm32Dev) (addr : Nat) : Nat :=
  if dev.fl_start ≤ addr ∧ addr < dev.fl_end then
    (pageWalk (addr - dev.fl_start) dev.fl_ps).1
  else 0

/-- Shallow embedding of `flash_addr_to_page_ceil` (stm32.cpp lines
1294-1313): the in-range test is `addr >= fl_start && addr <= fl_end`
(inclusive upper bound), and a non-zero residual offset adds one page. -/
def flash_addr_to_page_ceil (dev : Stm32Dev) (addr : Nat) : Nat :=
  if dev.fl_start ≤ addr ∧ addr ≤ dev.fl_end then
    let pr := pageWalk (addr - dev.fl_start) dev.fl_ps
    if pr.2 ≠ 0 then pr.1 + 1 else pr.1
  else 0

/-- The accumulation loop of `flash_page_to_addr` (stm32.cpp lines
1316-1330): `for (i = 0; i < page; i++) { addr += psize[0]; if (psize[1]) psize++; }`. -/
def pageToAddrWalk : Nat → List Nat → Nat
  | 0, _ => 0
  | _ + 1, [] => 0
  | p + 1, s :: rest => s + pageToAddrWalk p (psAdvance (s :: rest))

/-- Shallow embedding of `flash_page_to_addr`: the lower address of the
given flash page. -/
def flash_page_to_addr (dev : Stm32Dev) (page : Nat) : Nat :=
  dev.fl_start + pageToAddrWalk page dev.fl_ps

/-- Well-formed page-size array: one or more positive page sizes followed
by the zero terminator, as every entry of the device catalog provides. -/
def PsWF (ps : List Nat) : Prop :=
  ∃ l, ps = l ++ [0] ∧ l ≠ [] ∧ ∀ s ∈ l, 0 < s

/-- Modelled from the spec: `STM32_MAX_PAGES` is defined in the header
stm32.h, which is not part of the sources here; the spec's batching and
page-count discussion fixes the bootloader page-number space at two bytes,
so the bound is `0xFFFF`. -/
def STM32_MAX_PAGES : Nat := 0xFFFF

/-- Modelled from the spec: `STM32_MASS_ERASE` is defined in the header
stm32.h, which is not part of the sources here; the spec describes it as a
sentinel page count meaning "whole device", distinct from (and above) any
real page count, here `0x00100000`. -/
def STM32_MASS_ERASE : Nat := 0x00100000

/-- The batching `while (pages)` loop of `stm32_erase_memory` (stm32.cpp
lines 912-919): `n = (pages <= 512) ? pages : 512;`, one page-erase command
per batch.  The structural `fuel` is instantiated with `pages`, which
bounds the number of iterations. -/
def eraseBatchesF : Nat → Nat → Nat → List (Nat × Nat)
  | 0, _, _ => []
  | fuel + 1, spage, pages =>
    if pages = 0 then []
    else
      let n := if pages ≤ 512 then pages else 512
      (spage, n) :: eraseBatchesF fuel (spage + n) (pages - n)

/-- Batches `(start page, page count)` issued by the erase loop. -/
def eraseBatches (spage pages : Nat) : List (Nat × Nat) :=
  eraseBatchesF pages spage pages

/-- The erase frames `stm32_erase_memory` emits: nothing (with the given
result), a single mass-erase frame via `stm32_mass_erase`, or a sequence
of page-range batches each sent through `stm32_pages_erase`. -/
inductive EraseEmit
  | noFrames (e : Stm32Err)
  | mass
  | pageBatches (batches : List (Nat × Nat))
  deriving DecidableEq

/-- Shallow embedding of `stm32_erase_memory` (stm32.cpp lines 879-921),
abstracted to the erase frames it emits: the early guard, the
`STM32_CMD_ERR` check, the mass-erase dispatch unless the device has
`F_NO_ME`, the degrade `pages = flash_addr_to_page_ceil(fl_end)`, and the
512-page batching loop starting at the caller's `spage`. -/
def stm32_erase_memory (dev : Stm32Dev) (er spage pages : Nat) : EraseEmit :=
  if pages = 0 ∨ STM32_MAX_PAGES < spage ∨
      (pages ≠ STM32_MASS_ERASE ∧ STM32_MAX_PAGES < spage + pages) then
    .noFrames .ok
  else if er = 0xFF then .noFrames .noCmd
  else if pages = STM32_MASS_ERASE ∧ ¬dev.noME then .mass
  else
    let pages0 :=
      if pages = STM32_MASS_ERASE then flash_addr_to_page_ceil dev dev.fl_end
      else pages
    .pageBatches (eraseBatches spage pages0)

/-- Flat list of page numbers covered by a batch list, in order. -/
def batchPages : List (Nat × Nat) → List Nat
  | [] => []
  | (s, n) :: rest => (List.range n).map (s + ·) ++ batchPages rest

/-- Small concrete device for witnesses and counterexamples: two 4-byte
flash pages starting at `0x08000000`, with the `F_NO_ME` flag set. -/
def tinyDev : Stm32Dev :=
  ⟨0x08000000, 0x08000008, [4, 0], true⟩

/-- The 32-bit mask computation `(len + 3) & ~3` agrees with the
arithmetic rounding `4 * ((len + 3) / 4)` for every length up to 256. -/
theorem alignedLen_eq_ceil4 : ∀ L < 257, alignedLen L = ceil4 L := by
  decide

/-- C1: for every write of length `L` in `[1, 256]` with `L % 4 ≠ 0`, the
data payload frame built by `stm32_write_memory` has `ceil(L,4) + 2`
bytes; its first byte is `N - 1` with `N = ceil(L,4)`; the bytes at frame
positions `L+1 .. N` are `0xFF` padding; and its final byte is the XOR of
`N - 1` with all `N` payload bytes. -/
theorem write_frame_padding_law (data : List Nat)
    (h1 : 1 ≤ data.length) (h2 : data.length ≤ 256)
    (h3 : data.length % 4 ≠ 0) (hb : ∀ b ∈ data, b < 256) :
    (writeDataFrame data).length = ceil4 data.length + 2 ∧
    (writeDataFrame data).head? = some (ceil4 data.length - 1) ∧
    (∀ j, data.length + 1 ≤ j → j ≤ ceil4 data.length →
      (writeDataFrame data)[j]? = some 0xFF) ∧
    (writeDataFrame data).getLast? =
      some (xorFold (ceil4 data.length - 1)
        (data ++ List.replicate (ceil4 data.length - data.length) 0xFF)) := by
  set L := data.length with hL
  have hal : alignedLen L = ceil4 L := alignedLen_eq_ceil4 L (by omega)
  have hLle : L ≤ ceil4 L := by unfold ceil4; omega
  have hc4 : ceil4 L ≤ 256 := by unfold ceil4; omega
  have hc1 : 1 ≤ ceil4 L := by unfold ceil4; omega
  have hmod : (ceil4 L - 1) % 256 = ceil4 L - 1 := Nat.mod_eq_of_lt (by omega)
  have hWD : writeDataFrame data =
      (ceil4 L - 1) :: ((data ++ List.replicate (ceil4 L - L) 0xFF) ++
        [xorFold (ceil4 L - 1) (data ++ List.replicate (ceil4 L - L) 0xFF)]) := by
    simp only [writeDataFrame, List.cons_append, ← hL, hal, hmod]
  refine ⟨?_, ?_, ?_, ?_⟩
  · rw [hWD]
    simp only [List.length_cons, List.length_append, List.length_replicate,
      List.length_nil]
    omega
  · rw [hWD]
    rfl
  · intro j hj1 hj2
    obtain ⟨k, rfl⟩ : ∃ k, j = k + 1 := ⟨j - 1, by omega⟩
    rw [hWD, List.getElem?_cons_succ,
      List.getElem?_append_left
        (by simp only [List.length_append, List.length_replicate]; omega),
      List.getElem?_append_right (by omega),
      List.getElem?_replicate, if_pos (by omega)]
  · rw [hWD, ← List.cons_append, List.getLast?_concat]

/-- Witness for C1 at the concrete write `10 20 30` (length 3). -/
theorem write_frame_padding_law_witness :
    (writeDataFrame [0x10, 0x20, 0x30]).length = ceil4 3 + 2 ∧
    (writeDataFrame [0x10, 0x20, 0x30]).head? = some (ceil4 3 - 1) := by
  have h := write_frame_padding_law [0x10, 0x20, 0x30] (by decide) (by decide)
    (by decide) (by decide)
  exact ⟨h.1, h.2.1⟩

/-- C2 counterexample: the spec's S3 scenario claims the checksum byte of
the 3-byte write `01 02 03` is `0xFE`, but `03 ⊕ 01 ⊕ 02 ⊕ 03 ⊕ FF = 0xFC`,
so the emitted frame is not `03 01 02 03 FF FE`. -/
theorem write_frame_s3_cex :
    writeDataFrame [0x01, 0x02, 0x03] ≠ [0x03, 0x01, 0x02, 0x03, 0xFF, 0xFE] := by
  decide

/-- C2 (amended): the data payload frame for the 3-byte write `01 02 03`
is `03 01 02 03 FF` followed by the checksum byte `0xFC`. -/
theorem write_frame_s3 :
    writeDataFrame [0x01, 0x02, 0x03] = [0x03, 0x01, 0x02, 0x03, 0xFF, 0xFC] := by
  decide

/-- C9: the host-side CRC of the four zero bytes with initial value
`0xFFFFFFFF` is `0xC704DD7B` (CRC-32/MPEG-2 of one zero word). -/
theorem sw_crc_zero_word :
    stm32_sw_crc 0xFFFFFFFF [0x00, 0x00, 0x00, 0x00] = 0xC704DD7B := by
  decide

/-- C10: with `len = 0`, both `stm32_read_memory` and `stm32_write_memory`
return Ok immediately and emit nothing on the transport, for every
address (aligned or not) and every command byte (supported or the `0xFF`
sentinel). -/
theorem zero_length_noop (rm wm address : Nat) (sc1 sc2 : List PResp) :
    stm32_read_memory rm address 0 sc1 = some (.ok, []) ∧
    stm32_write_memory wm address [] sc2 = some (.ok, []) :=
  ⟨rfl, rfl⟩

/-- C7 counterexample: a zero-length write to the misaligned address
`0x08000001` returns Ok, not Unknown, because the `!len` early return
precedes the alignment check. -/
theorem write_unaligned_cex :
    stm32_write_memory 0x31 0x08000001 [] [] = some (.ok, []) ∧
    Stm32Err.ok ≠ Stm32Err.unknown :=
  ⟨rfl, by decide⟩

/-- C7 (amended): every write of a non-empty buffer to an address with
`address % 4 ≠ 0` emits no byte on the transport and fails with Unknown. -/
theorem write_unaligned_rejected (wm address : Nat) (data : List Nat)
    (sc : List PResp) (hne : data ≠ []) (ha : address % 4 ≠ 0) :
    stm32_write_memory wm address data sc = some (.unknown, []) := by
  have h3 : address &&& 0x3 = address % 4 :=
    Nat.and_pow_two_sub_one_eq_mod address 2
  have hlen : ¬data.length = 0 := by
    simpa [List.length_eq_zero] using hne
  unfold stm32_write_memory
  rw [if_neg hlen]
  by_cases h256 : 256 < data.length
  · rw [if_pos h256]
  · rw [if_neg h256, if_pos (by rw [h3]; exact ha)]

/-- Witness for C7 at a concrete one-byte write to `0x08000001`. -/
theorem write_unaligned_rejected_witness :
    stm32_write_memory 0x31 0x08000001 [0xDE] [] = some (.unknown, []) :=
  write_unaligned_rejected 0x31 0x08000001 [0xDE] [] (by decide) (by decide)

/-- C4: `stm32_get_ack_timeout` skips BUSY bytes and within-deadline
retryable timeouts, classifies the first terminal byte as Ok exactly for
ACK `0x79` and Nack exactly for NACK `0x1F` and Unknown otherwise,
returns Unknown on a transport error, fails immediately on a timed-out
read when the retry window is absent (no `PORT_RETRY` or a zero caller
timeout), and fails once the observed clock reaches the deadline. -/
theorem ack_first_terminal_byte (retry : Bool) (tmo t0 : Nat) :
    (∀ pre b rest, (∀ ev ∈ pre, AckSkippable retry tmo t0 ev) → b ≠ 0x76 →
      stm32_get_ack_timeout retry tmo t0 (pre ++ .ok b :: rest) =
        some (ackClassify b)) ∧
    (∀ b, (ackClassify b = .ok ↔ b = 0x79) ∧
      (ackClassify b = .nack ↔ b = 0x1F)) ∧
    (∀ rest, stm32_get_ack_timeout retry tmo t0 (.err :: rest) =
      some .unknown) ∧
    (∀ t1 rest, retry = false ∨ tmo = 0 →
      stm32_get_ack_timeout retry tmo t0 (.timedOut t1 :: rest) =
        some .unknown) ∧
    (∀ t1 rest, t0 + tmo ≤ t1 →
      stm32_get_ack_timeout retry tmo t0 (.timedOut t1 :: rest) =
        some .unknown) := by
  refine ⟨?_, ?_, ?_, ?_, ?_⟩
  · intro pre
    induction pre with
    | nil =>
      intro b rest _ hbusy
      simp only [List.nil_append, stm32_get_ack_timeout, ackClassify]
      by_cases h79 : b = 0x79
      · simp [h79]
      · by_cases h1f : b = 0x1F
        · simp [h79, h1f]
        · simp [h79, h1f, hbusy]
    | cons ev pre ih =>
      intro b rest hs hbusy
      have hev := hs ev (List.mem_cons_self ev pre)
      have hrest : ∀ e ∈ pre, AckSkippable retry tmo t0 e := fun e he =>
        hs e (List.mem_cons_of_mem ev he)
      rcases hev with hev | ⟨t1, rfl, hnz, hlt⟩
      · subst hev
        simp only [List.cons_append, stm32_get_ack_timeout]
        norm_num
        exact ih b rest hrest hbusy
      · simp only [List.cons_append, stm32_get_ack_timeout]
        rw [if_pos ⟨hnz, hlt⟩]
        exact ih b rest hrest hbusy
  · intro b
    unfold ackClassify
    by_cases h79 : b = 0x79 <;> by_cases h1f : b = 0x1F <;>
      simp [h79, h1f]
  · intro rest
    rfl
  · intro t1 rest h
    have hc : ¬((if retry then tmo else 0) ≠ 0 ∧
        t1 < t0 + (if retry then tmo else 0)) := by
      rcases h with rfl | rfl <;> simp
    simp only [stm32_get_ack_timeout]
    rw [if_neg hc]
  · intro t1 rest h
    have hc : ¬((if retry then tmo else 0) ≠ 0 ∧
        t1 < t0 + (if retry then tmo else 0)) := by
      cases retry <;> simp <;> omega
    simp only [stm32_get_ack_timeout]
    rw [if_neg hc]

/-- Witness for C4: a BUSY byte and a within-deadline timed-out read are
skipped, then ACK yields Ok, on a retrying port with timeout 10 from
clock 100; and on a non-retrying port a timed-out read fails at once. -/
theorem ack_first_terminal_byte_witness :
    stm32_get_ack_timeout true 10 100 [.ok 0x76, .timedOut 105, .ok 0x79] =
      some .ok ∧
    stm32_get_ack_timeout false 7 100 [.timedOut 100] = some .unknown := by
  constructor
  · exact (ack_first_terminal_byte true 10 100).1 [.ok 0x76, .timedOut 105]
      0x79 []
      (by
        intro ev hev
        fin_cases hev
        · exact Or.inl rfl
        · exact Or.inr ⟨105, rfl, by decide, by decide⟩)
      (by decide)
  · exact (ack_first_terminal_byte false 7 100).2.2.2.1 100 [] (Or.inl rfl)

/-- C5 counterexample: on a frame port with guess `len = 17`, the initial
19-byte read succeeds but leads with `11 ≠ 17`; the engine then performs
only one resync and never reads a single length byte, contradicting the
claimed resync/re-send/read-1/resync sequence for this case. -/
theorem guess_len_mismatch_cex :
    stm32_guess_len_cmd false 0x00 17
        [.cmdOk, .rdOk (11 :: List.replicate 18 0), .syncOk, .cmdOk,
         .rdOk (List.replicate 13 0)] =
      some (.ok, [Op.send 0x00, Op.rd 19, Op.resync, Op.send 0x00, Op.rd 13]) ∧
    List.count Op.resync
      [Op.send 0x00, Op.rd 19, Op.resync, Op.send 0x00, Op.rd 13] = 1 ∧
    Op.rd 1 ∉ [Op.send 0x00, Op.rd 19, Op.resync, Op.send 0x00, Op.rd 13] := by
  decide

/-- C5 (amended): on a frame port, when the initial `len + 2`-byte read
fails the engine resyncs, re-sends, reads one byte to discover the true
length `L`, resyncs once more and reads `L + 2` bytes; when the initial
read succeeds but its leading byte `b` differs from the guess, the engine
takes the length from `b` and performs a single resync, re-send and final
`b + 2`-byte read, with no intermediate one-byte read. -/
theorem guess_len_resync_recovery (cmd len L b : Nat)
    (bs1 bs2 fin : List Nat) :
    (stm32_guess_len_cmd false cmd len
        [.cmdOk, .rdFail, .syncOk, .cmdOk, .rdOk (L :: bs1), .syncOk,
         .cmdOk, .rdOk fin] =
      some (.ok, [Op.send cmd, Op.rd (len + 2), Op.resync, Op.send cmd,
        Op.rd 1, Op.resync, Op.send cmd, Op.rd (L + 2)])) ∧
    (b ≠ len →
      stm32_guess_len_cmd false cmd len
          [.cmdOk, .rdOk (b :: bs2), .syncOk, .cmdOk, .rdOk fin] =
        some (.ok, [Op.send cmd, Op.rd (len + 2), Op.resync, Op.send cmd,
          Op.rd (b + 2)])) := by
  constructor
  · rfl
  · intro h
    have hstep : stm32_guess_len_cmd false cmd len
        [.cmdOk, .rdOk (b :: bs2), .syncOk, .cmdOk, .rdOk fin] =
        if b = len then some (.ok, [Op.send cmd, Op.rd (len + 2)])
        else some (.ok, [Op.send cmd, Op.rd (len + 2), Op.resync,
          Op.send cmd, Op.rd (b + 2)]) := rfl
    rw [hstep, if_neg h]

/-- Witness for C5 at concrete scenarios (command `0x00`, guess 17, true
length 11): the failed-read shape and the mismatched-leading-byte shape. -/
theorem guess_len_resync_recovery_witness :
    (stm32_guess_len_cmd false 0x00 17
        [.cmdOk, .rdFail, .syncOk, .cmdOk, .rdOk [11], .syncOk, .cmdOk,
         .rdOk (List.replicate 13 0)] =
      some (.ok, [Op.send 0x00, Op.rd 19, Op.resync, Op.send 0x00, Op.rd 1,
        Op.resync, Op.send 0x00, Op.rd 13])) ∧
    (stm32_guess_len_cmd false 0x00 17
        [.cmdOk, .rdOk (11 :: List.replicate 18 0), .syncOk, .cmdOk,
         .rdOk (List.replicate 13 0)] =
      some (.ok, [Op.send 0x00, Op.rd 19, Op.resync, Op.send 0x00,
        Op.rd 13])) := by
  constructor
  · exact (guess_len_resync_recovery 0x00 17 11 0 [] []
      (List.replicate 13 0)).1
  · exact (guess_len_resync_recovery 0x00 17 0 11 [] (List.replicate 18 0)
      (List.replicate 13 0)).2 (by decide)

/-- The GET parse step only touches the `wm` field on the two write
opcodes, where it applies `newer`. -/
theorem parseGetByte_wm (c : Stm32Cmd) (v : Nat) :
    (parseGetByte c v).wm =
      if v = 0x31 ∨ v = 0x32 then newer c.wm v else c.wm := by
  by_cases hv : v = 0x31 ∨ v = 0x32
  · rw [if_pos hv]
    rcases hv with rfl | rfl <;> rfl
  · rw [if_neg hv]
    simp only [parseGetByte, apply_ite (fun s : Stm32Cmd => s.wm)]
    simp [hv]

/-- The GET parse step only touches the `er` field on the three erase
opcodes, where it applies `newer`. -/
theorem parseGetByte_er (c : Stm32Cmd) (v : Nat) :
    (parseGetByte c v).er =
      if v = 0x43 ∨ v = 0x44 ∨ v = 0x45 then newer c.er v else c.er := by
  by_cases hv : v = 0x43 ∨ v = 0x44 ∨ v = 0x45
  · rw [if_pos hv]
    rcases hv with rfl | rfl | rfl <;> rfl
  · rw [if_neg hv]
    simp only [parseGetByte, apply_ite (fun s : Stm32Cmd => s.er)]
    simp [hv]

/-- The GET parse step only touches the `wp` field on the two
write-protect opcodes, where it applies `newer`. -/
theorem parseGetByte_wp (c : Stm32Cmd) (v : Nat) :
    (parseGetByte c v).wp =
      if v = 0x63 ∨ v = 0x64 then newer c.wp v else c.wp := by
  by_cases hv : v = 0x63 ∨ v = 0x64
  · rw [if_pos hv]
    rcases hv with rfl | rfl <;> rfl
  · rw [if_neg hv]
    simp only [parseGetByte, apply_ite (fun s : Stm32Cmd => s.wp)]
    simp [hv]

/-- The GET parse step only touches the `uw` field on the two
write-unprotect opcodes, where it applies `newer`. -/
theorem parseGetByte_uw (c : Stm32Cmd) (v : Nat) :
    (parseGetByte c v).uw =
      if v = 0x73 ∨ v = 0x74 then newer c.uw v else c.uw := by
  by_cases hv : v = 0x73 ∨ v = 0x74
  · rw [if_pos hv]
    rcases hv with rfl | rfl <;> rfl
  · rw [if_neg hv]
    simp only [parseGetByte, apply_ite (fun s : Stm32Cmd => s.uw)]
    simp [hv]

/-- The GET parse step only touches the `rp` field on the two
readout-protect opcodes, where it applies `newer`. -/
theorem parseGetByte_rp (c : Stm32Cmd) (v : Nat) :
    (parseGetByte c v).rp =
      if v = 0x82 ∨ v = 0x83 then newer c.rp v else c.rp := by
  by_cases hv : v = 0x82 ∨ v = 0x83
  · rw [if_pos hv]
    rcases hv with rfl | rfl <;> rfl
  · rw [if_neg hv]
    simp only [parseGetByte, apply_ite (fun s : Stm32Cmd => s.rp)]
    simp [hv]

/-- The GET parse step only touches the `ur` field on the two
readout-unprotect opcodes, where it applies `newer`. -/
theorem parseGetByte_ur (c : Stm32Cmd) (v : Nat) :
    (parseGetByte c v).ur =
      if v = 0x92 ∨ v = 0x93 then newer c.ur v else c.ur := by
  by_cases hv : v = 0x92 ∨ v = 0x93
  · rw [if_pos hv]
    rcases hv with rfl | rfl <;> rfl
  · rw [if_neg hv]
    simp only [parseGetByte, apply_ite (fun s : Stm32Cmd => s.ur)]
    simp [hv]

/-- Once a dual-opcode field holds the numerically greatest of its
candidate opcodes, further GET bytes never change it. -/
theorem foldl_parse_absorb (f : Stm32Cmd → Nat) (P : Nat → Prop)
    [DecidablePred P] (b : Nat)
    (hstep : ∀ c v, f (parseGetByte c v) =
      if P v then newer (f c) v else f c)
    (hmax : ∀ v, P v → v ≤ b) (hb : b < 0xFF) :
    ∀ (l : List Nat) (c : Stm32Cmd), f c = b →
      f (l.foldl parseGetByte c) = b := by
  intro l
  induction l with
  | nil => intro c h; exact h
  | cons v t ih =>
    intro c h
    simp only [List.foldl_cons]
    apply ih
    rw [hstep]
    by_cases hv : P v
    · rw [if_pos hv, h]
      unfold newer
      rw [if_neg (by omega)]
      have hvb : v ≤ b := hmax v hv
      by_cases hgt : b > v
      · rw [if_pos hgt]
      · rw [if_neg hgt]; omega
    · rw [if_neg hv]; exact h

/-- During GET parsing, a dual-opcode field whose candidates all lie at or
below `b` ends at `b` whenever `b` occurs among the opcode bytes, starting
from the sentinel or from any candidate value. -/
theorem foldl_parse_latch (f : Stm32Cmd → Nat) (P : Nat → Prop)
    [DecidablePred P] (b : Nat)
    (hstep : ∀ c v, f (parseGetByte c v) =
      if P v then newer (f c) v else f c)
    (hmax : ∀ v, P v → v ≤ b) (hb : b < 0xFF) (hPb : P b) :
    ∀ (l : List Nat) (c : Stm32Cmd), b ∈ l →
      (f c = 0xFF ∨ (P (f c) ∧ f c ≤ b)) →
      f (l.foldl parseGetByte c) = b := by
  intro l
  induction l with
  | nil => intro c h; exact absurd h (List.not_mem_nil b)
  | cons v t ih =>
    intro c hmem hinv
    simp only [List.foldl_cons]
    by_cases hvb : v = b
    · subst hvb
      apply foldl_parse_absorb f P v hstep hmax hb
      rw [hstep, if_pos hPb]
      rcases hinv with h | ⟨hP, hle⟩
      · rw [h]
        unfold newer
        rw [if_pos rfl]
      · unfold newer
        rw [if_neg (by omega)]
        by_cases hgt : f c > v
        · rw [if_pos hgt]; omega
        · rw [if_neg hgt]
    · have hmem2 : b ∈ t := by
        rcases List.mem_cons.mp hmem with h | h
        · exact absurd h.symm hvb
        · exact h
      refine ih _ hmem2 ?_
      rw [hstep]
      by_cases hv : P v
      · rw [if_pos hv]
        rcases hinv with h | ⟨hP, hle⟩
        · rw [h]
          unfold newer
          rw [if_pos rfl]
          exact Or.inr ⟨hv, hmax v hv⟩
        · unfold newer
          rw [if_neg (by omega)]
          by_cases hgt : f c > v
          · rw [if_pos hgt]; exact Or.inr ⟨hP, hle⟩
          · rw [if_neg hgt]; exact Or.inr ⟨hv, hmax v hv⟩
      · rw [if_neg hv]; exact hinv

/-- C3 counterexample: the very first update of a dual-opcode entry starts
from the sentinel `0xFF`, and `newer` then stores the candidate `0x31`,
not `max(existing, candidate) = max(0xFF, 0x31) = 0xFF`. -/
theorem get_opcode_sentinel_cex :
    (parseGetByte initCmd 0x31).wm = 0x31 ∧
    max initCmd.wm 0x31 = 0xFF ∧ (0x31 : Nat) ≠ 0xFF := by
  decide

/-- C3 (amended): during GET parsing, an update of a dual-opcode entry
stores the candidate when the existing entry is the `0xFF` sentinel and
`max(existing, candidate)` otherwise; in particular, when both opcodes of
a legacy/no-stretch pair appear in the GET reply, the entry ends at the
numerically greater opcode of the pair (the CRC kind has a single opcode
`0xA1` in this code, so no pair statement applies to it). -/
theorem get_opcode_latching :
    (∀ prev v, prev ≠ 0xFF → newer prev v = max prev v) ∧
    (∀ v, newer 0xFF v = v) ∧
    (∀ buf, 0x31 ∈ getOpcodeSlice buf → 0x32 ∈ getOpcodeSlice buf →
      (stm32_parse_get buf).wm = 0x32) ∧
    (∀ buf, 0x44 ∈ getOpcodeSlice buf → 0x45 ∈ getOpcodeSlice buf →
      (stm32_parse_get buf).er = 0x45) ∧
    (∀ buf, 0x63 ∈ getOpcodeSlice buf → 0x64 ∈ getOpcodeSlice buf →
      (stm32_parse_get buf).wp = 0x64) ∧
    (∀ buf, 0x73 ∈ getOpcodeSlice buf → 0x74 ∈ getOpcodeSlice buf →
      (stm32_parse_get buf).uw = 0x74) ∧
    (∀ buf, 0x82 ∈ getOpcodeSlice buf → 0x83 ∈ getOpcodeSlice buf →
      (stm32_parse_get buf).rp = 0x83) ∧
    (∀ buf, 0x92 ∈ getOpcodeSlice buf → 0x93 ∈ getOpcodeSlice buf →
      (stm32_parse_get buf).ur = 0x93) := by
  refine ⟨?_, ?_, ?_, ?_, ?_, ?_, ?_, ?_⟩
  · intro prev v h
    unfold newer
    rw [if_neg h, Nat.max_def]
    split_ifs <;> omega
  · intro v
    unfold newer
    rw [if_pos rfl]
  · intro buf h1 h2
    exact foldl_parse_latch (fun c => c.wm) (fun v => v = 0x31 ∨ v = 0x32)
      0x32 parseGetByte_wm (by rintro v (rfl | rfl) <;> decide) (by decide)
      (Or.inr rfl) (getOpcodeSlice buf) initCmd h2 (Or.inl rfl)
  · intro buf h1 h2
    exact foldl_parse_latch (fun c => c.er)
      (fun v => v = 0x43 ∨ v = 0x44 ∨ v = 0x45) 0x45 parseGetByte_er
      (by rintro v (rfl | rfl | rfl) <;> decide) (by decide)
      (Or.inr (Or.inr rfl)) (getOpcodeSlice buf) initCmd h2 (Or.inl rfl)
  · intro buf h1 h2
    exact foldl_parse_latch (fun c => c.wp) (fun v => v = 0x63 ∨ v = 0x64)
      0x64 parseGetByte_wp (by rintro v (rfl | rfl) <;> decide) (by decide)
      (Or.inr rfl) (getOpcodeSlice buf) initCmd h2 (Or.inl rfl)
  · intro buf h1 h2
    exact foldl_parse_latch (fun c => c.uw) (fun v => v = 0x73 ∨ v = 0x74)
      0x74 parseGetByte_uw (by rintro v (rfl | rfl) <;> decide) (by decide)
      (Or.inr rfl) (getOpcodeSlice buf) initCmd h2 (Or.inl rfl)
  · intro buf h1 h2
    exact foldl_parse_latch (fun c => c.rp) (fun v => v = 0x82 ∨ v = 0x83)
      0x83 parseGetByte_rp (by rintro v (rfl | rfl) <;> decide) (by decide)
      (Or.inr rfl) (getOpcodeSlice buf) initCmd h2 (Or.inl rfl)
  · intro buf h1 h2
    exact foldl_parse_latch (fun c => c.ur) (fun v => v = 0x92 ∨ v = 0x93)
      0x93 parseGetByte_ur (by rintro v (rfl | rfl) <;> decide) (by decide)
      (Or.inr rfl) (getOpcodeSlice buf) initCmd h2 (Or.inl rfl)

/-- Witness for C3: a GET reply advertising both write opcodes ends with
`wm = 0x32`. -/
theorem get_opcode_latching_witness :
    (stm32_parse_get [0x02, 0x22, 0x31, 0x32]).wm = 0x32 :=
  get_opcode_latching.2.2.1 [0x02, 0x22, 0x31, 0x32] (by decide) (by decide)

/-- The erase batching loop covers exactly the `pages` consecutive pages
from `spage`, in batches of 1 to 512 pages each. -/
theorem eraseBatchesF_spec : ∀ (fuel spage pages : Nat), pages ≤ fuel →
    batchPages (eraseBatchesF fuel spage pages) =
      (List.range pages).map (spage + ·) ∧
    ∀ p ∈ eraseBatchesF fuel spage pages, 0 < p.2 ∧ p.2 ≤ 512 := by
  intro fuel
  induction fuel with
  | zero =>
    intro spage pages hle
    have h0 : pages = 0 := by omega
    subst h0
    exact ⟨rfl, by simp [eraseBatchesF]⟩
  | succ fuel ih =>
    intro spage pages hle
    by_cases h0 : pages = 0
    · subst h0
      simp [eraseBatchesF, batchPages]
    · have heq : eraseBatchesF (fuel + 1) spage pages =
          (spage, if pages ≤ 512 then pages else 512) ::
            eraseBatchesF fuel (spage + if pages ≤ 512 then pages else 512)
              (pages - if pages ≤ 512 then pages else 512) := by
        simp [eraseBatchesF, h0]
      set n := if pages ≤ 512 then pages else 512 with hn
      have hn1 : 1 ≤ n := by rw [hn]; split_ifs <;> omega
      have hn2 : n ≤ pages := by rw [hn]; split_ifs <;> omega
      have hn3 : n ≤ 512 := by rw [hn]; split_ifs <;> omega
      have hrec := ih (spage + n) (pages - n) (by omega)
      have hf : ((fun x => spage + x) ∘ (fun x => n + x)) =
          (fun x => spage + n + x) := by
        funext x
        simp [Function.comp, Nat.add_assoc]
      constructor
      · rw [heq]
        simp only [batchPages]
        rw [hrec.1]
        conv_rhs => rw [show pages = n + (pages - n) by omega]
        rw [List.range_add, List.map_append, List.map_map, hf]
      · rw [heq]
        intro p hp
        rcases List.mem_cons.mp hp with h | h
        · rw [h]
          exact ⟨hn1, hn3⟩
        · exact hrec.2 p h

/-- C6 counterexample: a mass-erase request on a `F_NO_ME` device with
`spage = 1` erases pages 1 and 2 of the two-page device — page 0 is not
covered, against the claimed coverage of page 0 through
`page_ceil(fl_end)` for every call. -/
theorem mass_erase_degrade_cex :
    stm32_erase_memory tinyDev 0x44 1 STM32_MASS_ERASE =
      .pageBatches [(1, 2)] ∧
    (0 : Nat) ∉ batchPages [(1, 2)] := by
  decide

/-- C6 (amended): a mass-erase request (`pages = STM32_MASS_ERASE`) on a
device with `F_NO_ME`, with a negotiated erase opcode and
`spage ≤ STM32_MAX_PAGES`, emits only page-range erase batches — never a
mass-erase frame — covering exactly the `flash_addr_to_page_ceil(fl_end)`
consecutive pages starting at `spage` (page 0 through the last page
exactly when `spage = 0`), in batches of at most 512 pages each. -/
theorem mass_erase_degrade (dev : Stm32Dev) (er spage : Nat)
    (hno : dev.noME = true) (her : er ≠ 0xFF)
    (hsp : spage ≤ STM32_MAX_PAGES) :
    stm32_erase_memory dev er spage STM32_MASS_ERASE =
      .pageBatches
        (eraseBatches spage (flash_addr_to_page_ceil dev dev.fl_end)) ∧
    batchPages
        (eraseBatches spage (flash_addr_to_page_ceil dev dev.fl_end)) =
      (List.range (flash_addr_to_page_ceil dev dev.fl_end)).map
        (spage + ·) ∧
    ∀ p ∈ eraseBatches spage (flash_addr_to_page_ceil dev dev.fl_end),
      0 < p.2 ∧ p.2 ≤ 512 := by
  have h1 := eraseBatchesF_spec (flash_addr_to_page_ceil dev dev.fl_end)
    spage (flash_addr_to_page_ceil dev dev.fl_end) le_rfl
  refine ⟨?_, h1.1, h1.2⟩
  have hguard : ¬(STM32_MASS_ERASE = 0 ∨ STM32_MAX_PAGES < spage ∨
      (STM32_MASS_ERASE ≠ STM32_MASS_ERASE ∧
        STM32_MAX_PAGES < spage + STM32_MASS_ERASE)) := by
    unfold STM32_MASS_ERASE STM32_MAX_PAGES at *
    omega
  unfold stm32_erase_memory
  rw [if_neg hguard, if_neg her, if_neg (by simp [hno]), if_pos rfl]

/-- Witness for C6 on the two-page `F_NO_ME` device with `spage = 0`. -/
theorem mass_erase_degrade_witness :
    stm32_erase_memory tinyDev 0x44 0 STM32_MASS_ERASE =
      .pageBatches
        (eraseBatches 0 (flash_addr_to_page_ceil tinyDev tinyDev.fl_end)) :=
  (mass_erase_degrade tinyDev 0x44 0 rfl (by decide) (by decide)).1

/-- A well-formed page-size array starts with a positive size. -/
theorem psWF_head (ps : List Nat) (h : PsWF ps) :
    ∃ s rest, ps = s :: rest ∧ 0 < s := by
  obtain ⟨l, rfl, hne, hpos⟩ := h
  cases l with
  | nil => exact absurd rfl hne
  | cons s t => exact ⟨s, t ++ [0], by simp, hpos s (List.mem_cons_self s t)⟩

/-- The pointer advance of the page-size walk preserves well-formedness. -/
theorem psWF_advance (ps : List Nat) (h : PsWF ps) : PsWF (psAdvance ps) := by
  obtain ⟨l, rfl, hne, hpos⟩ := h
  cases l with
  | nil => exact absurd rfl hne
  | cons s t =>
    cases t with
    | nil =>
      refine ⟨[s], ?_, by simp, ?_⟩
      · simp [psAdvance]
      · intro x hx
        apply hpos
        simpa using hx
    | cons r t2 =>
      have hr : 0 < r := hpos r (by simp)
      refine ⟨r :: t2, ?_, by simp, ?_⟩
      · simp [psAdvance, Nat.pos_iff_ne_zero.mp hr]
      · intro x hx
        apply hpos
        simp only [List.mem_cons] at hx ⊢
        tauto

/-- Correspondence of the page-size walk with the page-to-address
accumulation: on a well-formed array and with enough fuel, the walk stops
at a page whose start address plus the residual offset is the input
offset, the residual is smaller than that page's size, and the next page
starts exactly one page size further. -/
theorem pageWalkF_toAddr : ∀ (fuel off : Nat) (ps : List Nat), PsWF ps →
    off ≤ fuel →
    ∃ scur, 0 < scur ∧ (pageWalkF fuel off ps).2 < scur ∧
      pageToAddrWalk (pageWalkF fuel off ps).1 ps +
        (pageWalkF fuel off ps).2 = off ∧
      pageToAddrWalk ((pageWalkF fuel off ps).1 + 1) ps =
        pageToAddrWalk (pageWalkF fuel off ps).1 ps + scur := by
  intro fuel
  induction fuel with
  | zero =>
    intro off ps hwf hle
    obtain ⟨s, rest, rfl, hs⟩ := psWF_head ps hwf
    have h0 : off = 0 := by omega
    subst h0
    exact ⟨s, hs, by simpa [pageWalkF] using hs,
      by simp [pageWalkF, pageToAddrWalk],
      by simp [pageWalkF, pageToAddrWalk]⟩
  | succ fuel ih =>
    intro off ps hwf hle
    obtain ⟨s, rest, rfl, hs⟩ := psWF_head ps hwf
    by_cases hstop : off < s
    · have hg : s = 0 ∨ off < s := Or.inr hstop
      refine ⟨s, hs, ?_, ?_, ?_⟩ <;>
        simp [pageWalkF, if_pos hg, pageToAddrWalk]
      · exact hstop
    · have hguard : ¬(s = 0 ∨ off < s) := by omega
      have hwf2 := psWF_advance _ hwf
      have hle2 : off - s ≤ fuel := by omega
      obtain ⟨scur, hpos, hr, hsum, hnext⟩ :=
        ih (off - s) (psAdvance (s :: rest)) hwf2 hle2
      have hred : pageWalkF (fuel + 1) off (s :: rest) =
          ((pageWalkF fuel (off - s) (psAdvance (s :: rest))).1 + 1,
           (pageWalkF fuel (off - s) (psAdvance (s :: rest))).2) := by
        simp [pageWalkF, hguard]
      refine ⟨scur, hpos, ?_, ?_, ?_⟩
      · rw [hred]
        exact hr
      · rw [hred]
        simp only [pageToAddrWalk]
        omega
      · rw [hred]
        simp only [pageToAddrWalk]
        omega

/-- C8 counterexample: on the two-page device, the address `fl_end` lies
outside the flash range `[fl_start, fl_end)`, yet `flash_addr_to_page_ceil`
returns the full page count 2, not 0 — its in-range test is inclusive of
`fl_end`. -/
theorem page_ceil_edge_cex :
    ¬(tinyDev.fl_start ≤ 0x08000008 ∧ 0x08000008 < tinyDev.fl_end) ∧
    flash_addr_to_page_ceil tinyDev 0x08000008 = 2 ∧ (2 : Nat) ≠ 0 := by
  decide

/-- C8 (amended): on a device with a well-formed page-size array, for
every flash address `a` in `[fl_start, fl_end)` with floor page `p`,
`flash_page_to_addr p ≤ a < flash_page_to_addr (p + 1)` (with no
trailing-page exception); `flash_addr_to_page_floor` returns 0 outside
`[fl_start, fl_end)`; and `flash_addr_to_page_ceil` returns 0 outside the
inclusive range `[fl_start, fl_end]` (so `ceil fl_end` is the total page
count, not 0). -/
theorem page_floor_inverse (dev : Stm32Dev) (hwf : PsWF dev.fl_ps) :
    (∀ a, dev.fl_start ≤ a → a < dev.fl_end →
      flash_page_to_addr dev (flash_addr_to_page_floor dev a) ≤ a ∧
      a < flash_page_to_addr dev (flash_addr_to_page_floor dev a + 1)) ∧
    (∀ a, ¬(dev.fl_start ≤ a ∧ a < dev.fl_end) →
      flash_addr_to_page_floor dev a = 0) ∧
    (∀ a, ¬(dev.fl_start ≤ a ∧ a ≤ dev.fl_end) →
      flash_addr_to_page_ceil dev a = 0) := by
  refine ⟨?_, ?_, ?_⟩
  · intro a h1 h2
    obtain ⟨scur, hpos, hr, hsum, hnext⟩ :=
      pageWalkF_toAddr (a - dev.fl_start) (a - dev.fl_start) dev.fl_ps hwf
        le_rfl
    unfold flash_addr_to_page_floor flash_page_to_addr pageWalk
    rw [if_pos ⟨h1, h2⟩]
    constructor <;> omega
  · intro a h
    unfold flash_addr_to_page_floor
    rw [if_neg h]
  · intro a h
    unfold flash_addr_to_page_ceil
    rw [if_neg h]

/-- Witness for C8 on the two-page device at the in-page address
`0x08000005`: its floor page 1 starts at `0x08000004 ≤ a` and page 2
starts at `0x08000008 > a`. -/
theorem page_floor_inverse_witness :
    flash_page_to_addr tinyDev (flash_addr_to_page_floor tinyDev 0x08000005) ≤
      0x08000005 ∧
    0x08000005 <
      flash_page_to_addr tinyDev
        (flash_addr_to_page_floor tinyDev 0x08000005 + 1) :=
  (page_floor_inverse tinyDev ⟨[4], rfl, by decide, by decide⟩).1 0x08000005
    (by decide) (by decide)

end Stm32
